import Mathlib

/-!
Verification of the Jellal-HT/milvus repository slice: the index-node
gRPC client retry helpers (`internal/distributed/indexnode/client/client.go`)
and the query-coordinator task scheduler codec / recovery / worker-loss
behaviour exercised by `internal/querycoord/task_scheduler_test.go`.

Effectful Go code is embedded by explicit state passing: the outcomes of
external calls (gRPC dials, RPC invocations) are supplied as oracles
indexed by invocation number, and sleeping is accounted for as data
(milliseconds accumulated per retry interval).
-/

set_option autoImplicit false

namespace IndexNodeClient

variable {A E : Type}

/-- Modelled from the spec: the repository's `util/retry.Retry` helper is not
under `src/` (only its callers are).  Per §4.7 it is a bounded retry with a
fixed interval that returns the first successful result or the last error
after the bound.  `retryGo interval f n k` performs up to `n + 1` attempts
starting at attempt index `k`, sleeping `interval` milliseconds between
consecutive attempts; it returns the outcome together with the number of
attempts actually made and the total milliseconds slept. -/
def retryGo (interval : Nat) (f : Nat → Except E A) : Nat → Nat → Except E A × Nat × Nat
  | 0, k => (f k, 1, 0)
  | n + 1, k =>
    match f k with
    | Except.ok a => (Except.ok a, 1, 0)
    | Except.error _ =>
      let rest := retryGo interval f n (k + 1)
      (rest.1, rest.2.1 + 1, rest.2.2 + interval)

/-- Modelled from the spec: `retry.Retry(attempts, interval, fn)` — at most
`attempts` invocations of `fn`, `interval` milliseconds apart, first success
wins, otherwise the last attempt's error is returned. -/
def Retry (attempts interval : Nat) (f : Nat → Except E A) : Except E A × Nat × Nat :=
  retryGo interval f (attempts - 1) 0

/-- The `Client` struct of `client.go`.  The gRPC connection and stub are
represented by a single optional handle (`conn`); `timeout` is kept in
milliseconds. -/
structure Client where
  address : String
  timeoutMs : Nat
  reconnTry : Nat
  recallTry : Nat
  conn : Option Nat
  deriving DecidableEq

/-- `NewClient(address, timeout)`: rejects an empty address, otherwise builds
an unconnected client with `recallTry = 3` and `reconnTry = 10`. -/
def NewClient (address : String) (timeoutMs : Nat) : Except String Client :=
  if address = "" then Except.error "address is empty"
  else Except.ok { address := address, timeoutMs := timeoutMs,
                   reconnTry := 10, recallTry := 3, conn := none }

/-- `Client.Init`: dial with `retry.Retry(100000, 200ms)`; on success store
the connection, otherwise return the error.  `dial k` is the outcome of the
`k`-th dial attempt; the result carries the attempt count and slept time. -/
def Client.Init (c : Client) (dial : Nat → Except E Nat) : Except E Client × Nat × Nat :=
  match Retry 100000 200 dial with
  | (Except.ok conn, cnt, slept) => (Except.ok { c with conn := some conn }, cnt, slept)
  | (Except.error e, cnt, slept) => (Except.error e, cnt, slept)

/-- `Client.reconnect`: dial with `retry.Retry(c.reconnTry, 500ms)`; on
success store the connection, otherwise return the error. -/
def Client.reconnect (c : Client) (dial : Nat → Except E Nat) : Except E Client × Nat × Nat :=
  match Retry c.reconnTry 500 dial with
  | (Except.ok conn, cnt, slept) => (Except.ok { c with conn := some conn }, cnt, slept)
  | (Except.error e, cnt, slept) => (Except.error e, cnt, slept)

/-- The `for i := 0; i < recallTry; i++` loop of `Client.recall`.
`caller ci` is the outcome (value, optional error) of the `ci`-th invocation
of the caller closure; `reconn ri` is the outcome of the `ri`-th invocation
of `c.reconnect()` (`none` = success).  `ret`/`err` are the current values of
the Go variables; `ci`/`ri` count invocations made so far.  Returns the pair
`(ret, err)` finally returned by `recall` together with the final counts. -/
def recallLoop (caller : Nat → A × Option E) (reconn : Nat → Option E) :
    Nat → A → E → Nat → Nat → (A × Option E) × Nat × Nat
  | 0, ret, err, ci, ri => ((ret, some err), ci, ri)
  | n + 1, ret, _err, ci, ri =>
    match reconn ri with
    | none =>
      match caller ci with
      | (r, none) => ((r, none), ci + 1, ri + 1)
      | (r, some e) => recallLoop caller reconn n r e (ci + 1) (ri + 1)
    | some e => recallLoop caller reconn n ret e ci (ri + 1)

/-- `Client.recall(caller)`: one initial invocation of the caller; on error,
up to `recallTry` rounds of reconnect-then-retry.  The result is the returned
`(ret, err)` pair plus the number of caller and reconnect invocations. -/
def Client.recall (c : Client) (caller : Nat → A × Option E) (reconn : Nat → Option E) :
    (A × Option E) × Nat × Nat :=
  match caller 0 with
  | (r, none) => ((r, none), 1, 0)
  | (r, some e) => recallLoop caller reconn c.recallTry r e 1 0

end IndexNodeClient

namespace QueryCoord

/-- Modelled from the spec: the nine task variants of the query-coordinator
task model (§3); the scheduler implementation itself is not under `src/`
(only `task_scheduler_test.go` is). -/
inductive MsgType
  | LoadCollection
  | LoadPartitions
  | ReleaseCollection
  | ReleasePartitions
  | LoadSegments
  | ReleaseSegments
  | WatchDmChannels
  | WatchQueryChannels
  | LoadBalanceSegments
  deriving DecidableEq

/-- Modelled from the spec: the lifecycle states of §4.3. -/
inductive TaskState
  | taskUndefined
  | taskUnissued
  | taskDoing
  | taskDone
  | taskFailed
  deriving DecidableEq

/-- Decimal encoding of a state as stored under the task-info KV entries. -/
def stateNat : TaskState → Nat
  | TaskState.taskUndefined => 0
  | TaskState.taskUnissued => 1
  | TaskState.taskDoing => 2
  | TaskState.taskDone => 3
  | TaskState.taskFailed => 4

/-- Decoding of a persisted state number. -/
def decodeState : Nat → Option TaskState
  | 0 => some TaskState.taskUndefined
  | 1 => some TaskState.taskUnissued
  | 2 => some TaskState.taskDoing
  | 3 => some TaskState.taskDone
  | 4 => some TaskState.taskFailed
  | _ => none

/-- The type tag written into a marshalled blob for each variant. -/
def msgTypeTag : MsgType → Nat
  | MsgType.LoadCollection => 0
  | MsgType.LoadPartitions => 1
  | MsgType.ReleaseCollection => 2
  | MsgType.ReleasePartitions => 3
  | MsgType.LoadSegments => 4
  | MsgType.ReleaseSegments => 5
  | MsgType.WatchDmChannels => 6
  | MsgType.WatchQueryChannels => 7
  | MsgType.LoadBalanceSegments => 8

/-- Tag decoding: the inverse of `msgTypeTag` on known tags, `none` on any
unknown tag. -/
def tagMsgType : Nat → Option MsgType
  | 0 => some MsgType.LoadCollection
  | 1 => some MsgType.LoadPartitions
  | 2 => some MsgType.ReleaseCollection
  | 3 => some MsgType.ReleasePartitions
  | 4 => some MsgType.LoadSegments
  | 5 => some MsgType.ReleaseSegments
  | 6 => some MsgType.WatchDmChannels
  | 7 => some MsgType.WatchQueryChannels
  | 8 => some MsgType.LoadBalanceSegments
  | _ => none

/-- Modelled from the spec: a marshalled task blob (§4.1): a self-describing
type tag plus the serialized request payload.  The payload here carries the
request fields the tests exercise: the base timestamp and the target node
id. -/
structure Blob where
  tag : Nat
  payload : List Nat
  deriving DecidableEq

/-- Modelled from the spec: a task (§3) — id, message-type discriminator,
timestamp, target node, lifecycle state, and the ordered child list. -/
inductive Task
  | mk (id : Int) (msgType : MsgType) (timestamp : Nat) (nodeID : Nat)
      (state : TaskState) (children : List Task)

def Task.getID : Task → Int
  | Task.mk i _ _ _ _ _ => i

def Task.msgType : Task → MsgType
  | Task.mk _ m _ _ _ _ => m

def Task.timestamp : Task → Nat
  | Task.mk _ _ ts _ _ _ => ts

def Task.nodeID : Task → Nat
  | Task.mk _ _ _ n _ _ => n

def Task.getState : Task → TaskState
  | Task.mk _ _ _ _ st _ => st

def Task.getChildTask : Task → List Task
  | Task.mk _ _ _ _ _ cs => cs

def Task.setState : Task → TaskState → Task
  | Task.mk i m ts n _ cs, st => Task.mk i m ts n st cs

def Task.withChildren : Task → List Task → Task
  | Task.mk i m ts n st _, cs => Task.mk i m ts n st cs

/-- Modelled from the spec: `marshal` (§4.1) serializes the type tag and the
request payload; the task id, state and children are not part of the blob
(the id is the KV key suffix, the state lives under the task-info entries). -/
def Task.marshal (t : Task) : Blob :=
  { tag := msgTypeTag t.msgType, payload := [t.timestamp, t.nodeID] }

inductive UnmarshalErr
  | unknownTaskType
  | corruptTask
  deriving DecidableEq

/-- Payload decoding: the payload must consist of exactly the serialized
request fields; anything else is malformed. -/
def parsePayload : List Nat → Option (Nat × Nat)
  | [ts, nid] => some (ts, nid)
  | _ => none

/-- Modelled from the spec: `unmarshalTask(id, blob)` (§4.1) reconstructs the
task with the supplied id, the variant-specific fields, a fresh condition and
`state = undefined`; an unknown tag yields `ErrUnknownTaskType`, a malformed
payload yields `ErrCorruptTask`. -/
def unmarshalTask (id : Int) (b : Blob) : Except UnmarshalErr Task :=
  match tagMsgType b.tag with
  | none => Except.error UnmarshalErr.unknownTaskType
  | some mt =>
    match parsePayload b.payload with
    | none => Except.error UnmarshalErr.corruptTask
    | some (ts, nid) => Except.ok (Task.mk id mt ts nid TaskState.taskUndefined [])

/-- Modelled from the spec: the KV layout (§6) has three key groups,
`triggerTaskPrefix/<id>`, `activeTaskPrefix/<id>` and `taskInfoPrefix/<id>`;
each group is represented as an association list from the id suffix to the
stored value. -/
structure KVStore where
  triggerTasks : List (Int × Blob)
  activeTasks : List (Int × Blob)
  taskInfos : List (Int × Nat)

inductive RecoveryErr
  | recoveryFailed
  deriving DecidableEq

/-- Unmarshal every entry of one key group; any failure aborts recovery
(§4.6: a partially applied view is never exposed). -/
def unmarshalAll : List (Int × Blob) → Except RecoveryErr (List Task)
  | [] => Except.ok []
  | (i, b) :: rest =>
    match unmarshalTask i b with
    | Except.error _ => Except.error RecoveryErr.recoveryFailed
    | Except.ok t =>
      match unmarshalAll rest with
      | Except.error e => Except.error e
      | Except.ok ts => Except.ok (t :: ts)

/-- Decode every persisted task-info state; an unreadable state aborts
recovery. -/
def decodeStates : List (Int × Nat) → Except RecoveryErr (List (Int × TaskState))
  | [] => Except.ok []
  | (i, n) :: rest =>
    match decodeState n with
    | none => Except.error RecoveryErr.recoveryFailed
    | some st =>
      match decodeStates rest with
      | Except.error e => Except.error e
      | Except.ok ss => Except.ok ((i, st) :: ss)

/-- Apply the persisted states to the in-memory tasks by id (§4.6 step 3). -/
def applyStates (infos : List (Int × TaskState)) (ts : List Task) : List Task :=
  infos.foldl
    (fun acc p => acc.map (fun t => if t.getID = p.1 then t.setState p.2 else t)) ts

/-- Modelled from the spec: recovered active tasks are re-attached as
children of the recovered trigger that has reached a terminal `done` state
(§4.6 step 4 and step 5; the marshalled blob carries no parent link, §9). -/
def attachChildren (actives : List Task) (t : Task) : Task :=
  if t.getState = TaskState.taskDone then t.withChildren actives else t

def insertByTs (t : Task) : List Task → List Task
  | [] => [t]
  | h :: r => if t.timestamp ≤ h.timestamp then t :: h :: r else h :: insertByTs t r

/-- Triggers are enqueued in ascending timestamp order (§4.6 step 4). -/
def sortByTs : List Task → List Task
  | [] => []
  | h :: r => insertByTs h (sortByTs r)

/-- Modelled from the spec: `reloadFromKV` (§4.6) — unmarshal the trigger
entries and the active entries, apply the persisted states, re-attach active
tasks to the recovered terminal trigger, and enqueue triggers by ascending
timestamp; any failure yields `ErrRecoveryFailed`. -/
def reloadFromKV (kv : KVStore) : Except RecoveryErr (List Task) :=
  match unmarshalAll kv.triggerTasks with
  | Except.error e => Except.error e
  | Except.ok triggers =>
    match unmarshalAll kv.activeTasks with
    | Except.error e => Except.error e
    | Except.ok actives =>
      match decodeStates kv.taskInfos with
      | Except.error e => Except.error e
      | Except.ok infos =>
        let triggers2 := applyStates infos triggers
        let actives2 := applyStates infos actives
        Except.ok (sortByTs (triggers2.map (attachChildren actives2)))

/-- `PopTask` on the trigger queue: the queue is FIFO, the head leaves
first. -/
def PopTask (q : List Task) : Option Task := q.head?

/-- Modelled from the spec: one entry under the active-task KV group as seen
by the worker-loss handler (§4.5): its key suffix `id`, the worker node it
targets, the id of its parent trigger, and its `excludeNodeIDs`. -/
structure ActiveChild where
  id : Int
  target : Int
  parentID : Int
  excludeNodeIDs : List Int
  deriving DecidableEq

/-- Modelled from the spec: the worker-loss sweep of §4.5.  `cluster excl`
is the Cluster View's deterministic choice of an eligible worker excluding
`excl` (`none` when no worker is eligible).  Each child targeting the lost
worker `w` gets `w` added to its exclude list and is re-issued under a fresh
id on the chosen worker; when no worker is eligible its parent fails and
every entry of that parent is cleaned up.  `nid` is the next fresh id,
`failed` collects failed parents, `acc` the rebuilt active entries. -/
def redispatchAll (cluster : List Int → Option Int) (w : Int) :
    List ActiveChild → Int → List Int → List ActiveChild → List ActiveChild
  | [], _nid, _failed, acc => acc
  | c :: rest, nid, failed, acc =>
    if c.parentID ∈ failed then
      redispatchAll cluster w rest nid failed acc
    else if c.target = w then
      match cluster (w :: c.excludeNodeIDs) with
      | some n =>
        redispatchAll cluster w rest (nid + 1) failed
          (acc ++ [{ id := nid, target := n, parentID := c.parentID,
                     excludeNodeIDs := w :: c.excludeNodeIDs }])
      | none =>
        redispatchAll cluster w rest nid (c.parentID :: failed)
          (acc.filter (fun e => e.parentID ≠ c.parentID))
    else
      redispatchAll cluster w rest nid failed (acc ++ [c])

/-- The active-task entries after the session registry reports worker `w`
down, starting from entries `s` with next fresh id `nextID`. -/
def handleNodeDown (cluster : List Int → Option Int) (w : Int) (nextID : Int)
    (s : List ActiveChild) : List ActiveChild :=
  redispatchAll cluster w s nextID [] []

/-- The set of key suffixes under the active-task KV group. -/
def activeKeys (s : List ActiveChild) : List Int := s.map (fun c => c.id)

end QueryCoord

namespace IndexNodeClient

variable {A E : Type}
variable {interval : Nat} {f : Nat → Except E A}
variable {caller : Nat → A × Option E} {reconn : Nat → Option E}

theorem retryGo_calls_pos (n k : Nat) : 1 ≤ (retryGo interval f n k).2.1 := by
  cases n with
  | zero => simp [retryGo]
  | succ m => cases hfk : f k <;> simp [retryGo, hfk]

theorem retryGo_calls_le : ∀ n k : Nat, (retryGo interval f n k).2.1 ≤ n + 1 := by
  intro n
  induction n with
  | zero => intro k; simp [retryGo]
  | succ m ih =>
    intro k
    cases hfk : f k with
    | ok a => simp [retryGo, hfk]
    | error e =>
      have h := ih (k + 1)
      simp only [retryGo, hfk]
      omega

theorem retryGo_slept :
    ∀ n k : Nat, (retryGo interval f n k).2.2 =
      interval * ((retryGo interval f n k).2.1 - 1) := by
  intro n
  induction n with
  | zero => intro k; simp [retryGo]
  | succ m ih =>
    intro k
    cases hfk : f k with
    | ok a => simp [retryGo, hfk]
    | error e =>
      have h1 := ih (k + 1)
      have h2 := @retryGo_calls_pos A E interval f m (k + 1)
      simp only [retryGo, hfk]
      rw [h1]
      rcases Nat.exists_eq_add_of_le h2 with ⟨c, hc⟩
      rw [Nat.add_comm 1 c] at hc
      rw [hc]
      simp [Nat.mul_succ]

theorem retryGo_first_success :
    ∀ (j n k : Nat) (a : A), j ≤ n → f (k + j) = Except.ok a →
      (∀ i, i < j → ∃ e, f (k + i) = Except.error e) →
      retryGo interval f n k = (Except.ok a, j + 1, interval * j) := by
  intro j
  induction j with
  | zero =>
    intro n k a _hle hok _hfail
    have hk : f k = Except.ok a := by simpa using hok
    cases n <;> simp [retryGo, hk]
  | succ j ih =>
    intro n k a hle hok hfail
    obtain ⟨m, rfl⟩ : ∃ m, n = m + 1 := ⟨n - 1, by omega⟩
    obtain ⟨e0, he0⟩ := hfail 0 (Nat.succ_pos j)
    have hk : f k = Except.error e0 := by simpa using he0
    have ihres := ih m (k + 1) a (by omega)
      (by rw [show k + 1 + j = k + (j + 1) from by omega]; exact hok)
      (fun i hi => by
        obtain ⟨e, he⟩ := hfail (i + 1) (by omega)
        exact ⟨e, by rw [show k + 1 + i = k + (i + 1) from by omega]; exact he⟩)
    simp [retryGo, hk, ihres, Nat.mul_succ]

theorem retryGo_all_fail (g : Nat → E) :
    ∀ n k : Nat, (∀ i, i ≤ n → f (k + i) = Except.error (g (k + i))) →
      retryGo interval f n k = (Except.error (g (k + n)), n + 1, interval * n) := by
  intro n
  induction n with
  | zero =>
    intro k h
    have hk : f k = Except.error (g k) := by simpa using h 0 (Nat.le_refl 0)
    simp [retryGo, hk]
  | succ m ih =>
    intro k h
    have hk : f k = Except.error (g k) := by simpa using h 0 (by omega)
    have ihres := ih (k + 1) (fun i hi => by
      have hh := h (i + 1) (by omega)
      rw [show k + (i + 1) = k + 1 + i from by omega] at hh
      exact hh)
    rw [show k + (m + 1) = k + 1 + m from by omega]
    simp [retryGo, hk, ihres, Nat.mul_succ]

theorem recallLoop_counts :
    ∀ (n : Nat) (ret : A) (err : E) (ci ri : Nat),
      ci ≤ (recallLoop caller reconn n ret err ci ri).2.1 ∧
      (recallLoop caller reconn n ret err ci ri).2.1 ≤ ci + n ∧
      ri ≤ (recallLoop caller reconn n ret err ci ri).2.2 ∧
      (recallLoop caller reconn n ret err ci ri).2.2 ≤ ri + n ∧
      (recallLoop caller reconn n ret err ci ri).2.1 + ri ≤
        (recallLoop caller reconn n ret err ci ri).2.2 + ci := by
  intro n
  induction n with
  | zero => intro ret err ci ri; simp [recallLoop]; omega
  | succ m ih =>
    intro ret err ci ri
    cases hr : reconn ri with
    | none =>
      cases hc : caller ci with
      | mk r oe =>
        cases oe with
        | none => simp [recallLoop, hr, hc]; omega
        | some e =>
          have h := ih r e (ci + 1) (ri + 1)
          simp only [recallLoop, hr, hc]
          omega
    | some e =>
      have h := ih ret e ci (ri + 1)
      simp only [recallLoop, hr]
      omega

theorem recallLoop_success_char :
    ∀ (n : Nat) (ret : A) (err : E) (ci ri : Nat) (r : A) (ci' ri' : Nat),
      recallLoop caller reconn n ret err ci ri = ((r, none), ci', ri') →
      ci < ci' ∧ caller (ci' - 1) = (r, none) ∧
        ∀ j, ci ≤ j → j < ci' - 1 → (caller j).2 ≠ none := by
  intro n
  induction n with
  | zero =>
    intro ret err ci ri r ci' ri' h
    simp [recallLoop] at h
  | succ m ih =>
    intro ret err ci ri r ci' ri' h
    cases hr : reconn ri with
    | none =>
      cases hc : caller ci with
      | mk rc oe =>
        cases oe with
        | none =>
          simp only [recallLoop, hr, hc, Prod.mk.injEq] at h
          obtain ⟨⟨ha, -⟩, hci, hri⟩ := h
          subst ha hci hri
          refine ⟨by omega, by simpa using hc, fun j hj1 hj2 => ?_⟩
          exact absurd hj2 (by omega)
        | some ec =>
          simp only [recallLoop, hr, hc] at h
          obtain ⟨h1, h2, h3⟩ := ih rc ec (ci + 1) (ri + 1) r ci' ri' h
          refine ⟨by omega, h2, fun j hj1 hj2 => ?_⟩
          rcases Nat.eq_or_lt_of_le hj1 with heq | hlt
          · rw [← heq, hc]; simp
          · exact h3 j (by omega) hj2
    | some e =>
      simp only [recallLoop, hr] at h
      exact ih ret e ci (ri + 1) r ci' ri' h

theorem recallLoop_failure_char :
    ∀ (n : Nat) (ret : A) (err : E) (ci ri : Nat) (ret' : A) (e : E) (ci' ri' : Nat),
      recallLoop caller reconn n ret err ci ri = ((ret', some e), ci', ri') →
      (n = 0 ∧ e = err ∧ ci' = ci ∧ ri' = ri) ∨
      (ri + 1 ≤ ri' ∧ (reconn (ri' - 1) = some e ∨
        (reconn (ri' - 1) = none ∧ (caller (ci' - 1)).2 = some e))) := by
  intro n
  induction n with
  | zero =>
    intro ret err ci ri ret' e ci' ri' h
    simp only [recallLoop, Prod.mk.injEq] at h
    obtain ⟨⟨-, he⟩, hci, hri⟩ := h
    exact Or.inl ⟨rfl, Option.some.inj he.symm, hci.symm, hri.symm⟩
  | succ m ih =>
    intro ret err ci ri ret' e ci' ri' h
    cases hr : reconn ri with
    | none =>
      cases hc : caller ci with
      | mk rc oe =>
        cases oe with
        | none =>
          simp only [recallLoop, hr, hc, Prod.mk.injEq] at h
          exact absurd h.1.2 (by simp)
        | some ec =>
          simp only [recallLoop, hr, hc] at h
          rcases ih rc ec (ci + 1) (ri + 1) ret' e ci' ri' h with
            ⟨-, he, hci, hri⟩ | ⟨hge, hrest⟩
          · subst hci hri
            refine Or.inr ⟨by omega, Or.inr ⟨by simp [hr], ?_⟩⟩
            simpa [hc] using he.symm
          · exact Or.inr ⟨by omega, hrest⟩
    | some e0 =>
      simp only [recallLoop, hr] at h
      rcases ih ret e0 ci (ri + 1) ret' e ci' ri' h with
        ⟨-, he, hci, hri⟩ | ⟨hge, hrest⟩
      · subst hri
        refine Or.inr ⟨by omega, Or.inl ?_⟩
        simpa [hr] using he.symm
      · exact Or.inr ⟨by omega, hrest⟩

theorem Retry_slept (attempts interval : Nat) (f : Nat → Except E A) :
    (Retry attempts interval f).2.2 = interval * ((Retry attempts interval f).2.1 - 1) :=
  retryGo_slept _ _

theorem Retry_calls_le (attempts interval : Nat) (f : Nat → Except E A)
    (h : 0 < attempts) : (Retry attempts interval f).2.1 ≤ attempts := by
  unfold Retry
  have hh := @retryGo_calls_le A E interval f (attempts - 1) 0
  omega

theorem Retry_first_success (attempts interval : Nat) (f : Nat → Except E A)
    (j : Nat) (a : A) (hj : j < attempts) (hok : f j = Except.ok a)
    (hfail : ∀ i, i < j → ∃ e, f i = Except.error e) :
    Retry attempts interval f = (Except.ok a, j + 1, interval * j) := by
  unfold Retry
  exact retryGo_first_success j (attempts - 1) 0 a (by omega) (by simpa using hok)
    (fun i hi => by simpa using hfail i hi)

theorem Retry_all_fail (attempts interval : Nat) (f : Nat → Except E A) (g : Nat → E)
    (h0 : 0 < attempts) (h : ∀ k, k < attempts → f k = Except.error (g k)) :
    Retry attempts interval f =
      (Except.error (g (attempts - 1)), attempts, interval * (attempts - 1)) := by
  unfold Retry
  rw [retryGo_all_fail g (attempts - 1) 0 (fun i hi => by simpa using h i (by omega))]
  rw [Nat.zero_add, Nat.sub_add_cancel h0]

theorem Init_counts (c : Client) (dial : Nat → Except E Nat) :
    (c.Init dial).2 = (Retry 100000 200 dial).2 := by
  rcases hR : Retry 100000 200 dial with ⟨res, cnt, slept⟩
  cases res <;> simp [Client.Init, hR]

theorem reconnect_counts (c : Client) (dial : Nat → Except E Nat) :
    (c.reconnect dial).2 = (Retry c.reconnTry 500 dial).2 := by
  rcases hR : Retry c.reconnTry 500 dial with ⟨res, cnt, slept⟩
  cases res <;> simp [Client.reconnect, hR]

theorem recallLoop_all_reconn_fail (g : Nat → E) (hg : ∀ j, reconn j = some (g j)) :
    ∀ (n : Nat) (ret : A) (err : E) (ci ri : Nat),
      recallLoop caller reconn (n + 1) ret err ci ri =
        ((ret, some (g (ri + n))), ci, ri + n + 1) := by
  intro n
  induction n with
  | zero => intro ret err ci ri; simp [recallLoop, hg ri]
  | succ m ih =>
    intro ret err ci ri
    have step : recallLoop caller reconn (m + 2) ret err ci ri =
        recallLoop caller reconn (m + 1) ret (g ri) ci (ri + 1) := by
      simp [recallLoop, hg ri]
    rw [step, ih ret (g ri) ci (ri + 1)]
    rw [show ri + 1 + m = ri + (m + 1) from by omega]

end IndexNodeClient

namespace QueryCoord

/-- Every entry of the rebuilt active list is either an already accumulated
entry, an untouched entry not targeting the lost worker, or a re-issued
entry carrying a fresh id of at least `nid`. -/
theorem mem_redispatchAll (cluster : List Int → Option Int) (w : Int) :
    ∀ (rest : List ActiveChild) (nid : Int) (failed : List Int)
      (acc : List ActiveChild) (e : ActiveChild),
      e ∈ redispatchAll cluster w rest nid failed acc →
      e ∈ acc ∨ (e ∈ rest ∧ e.target ≠ w) ∨ nid ≤ e.id := by
  intro rest
  induction rest with
  | nil =>
    intro nid failed acc e h
    exact Or.inl h
  | cons c rest ih =>
    intro nid failed acc e h
    simp only [redispatchAll] at h
    by_cases hp : c.parentID ∈ failed
    · rw [if_pos hp] at h
      rcases ih nid failed acc e h with h1 | ⟨h2, h3⟩ | h4
      · exact Or.inl h1
      · exact Or.inr (Or.inl ⟨List.mem_cons_of_mem _ h2, h3⟩)
      · exact Or.inr (Or.inr h4)
    · rw [if_neg hp] at h
      by_cases ht : c.target = w
      · rw [if_pos ht] at h
        cases hcl : cluster (w :: c.excludeNodeIDs) with
        | some n =>
          rw [hcl] at h
          rcases ih (nid + 1) failed
            (acc ++ [{ id := nid, target := n, parentID := c.parentID,
                       excludeNodeIDs := w :: c.excludeNodeIDs }]) e h with
            h1 | ⟨h2, h3⟩ | h4
          · rcases List.mem_append.mp h1 with ha | hb
            · exact Or.inl ha
            · have he := List.mem_singleton.mp hb
              exact Or.inr (Or.inr (by simp [he]))
          · exact Or.inr (Or.inl ⟨List.mem_cons_of_mem _ h2, h3⟩)
          · exact Or.inr (Or.inr (by omega))
        | none =>
          rw [hcl] at h
          rcases ih nid (c.parentID :: failed)
            (acc.filter (fun e2 => e2.parentID ≠ c.parentID)) e h with
            h1 | ⟨h2, h3⟩ | h4
          · exact Or.inl (List.mem_of_mem_filter h1)
          · exact Or.inr (Or.inl ⟨List.mem_cons_of_mem _ h2, h3⟩)
          · exact Or.inr (Or.inr h4)
      · rw [if_neg ht] at h
        rcases ih nid failed (acc ++ [c]) e h with h1 | ⟨h2, h3⟩ | h4
        · rcases List.mem_append.mp h1 with ha | hb
          · exact Or.inl ha
          · have he := List.mem_singleton.mp hb
            refine Or.inr (Or.inl ⟨?_, ?_⟩)
            · rw [he]; exact List.mem_cons_self _ _
            · rw [he]; exact ht
        · exact Or.inr (Or.inl ⟨List.mem_cons_of_mem _ h2, h3⟩)
        · exact Or.inr (Or.inr h4)

end QueryCoord

section ClaimTheorems

open IndexNodeClient QueryCoord

/-- C1: for each of the nine task variants, unmarshalling the bytes produced
by `marshal` with a fresh id succeeds and yields a task whose message type
equals the original variant's message type. -/
theorem unmarshal_marshal_roundtrip (id : Int) (t : QueryCoord.Task) :
    ∃ t2, QueryCoord.unmarshalTask id t.marshal = Except.ok t2 ∧
      t2.msgType = t.msgType := by
  cases t with
  | mk i m ts n st cs => cases m <;> exact ⟨_, rfl, rfl⟩

/-- The KV contents of the recovery-shape scenario: a marshalled
loadCollection trigger with timestamp 1 under trigger id 100, a marshalled
loadSegments task with timestamp 2 under active id 101, and state `done`
recorded for id 100. -/
def kvRecoveryShape : QueryCoord.KVStore :=
  { triggerTasks := [(100, (QueryCoord.Task.mk 0 QueryCoord.MsgType.LoadCollection 1 0
      QueryCoord.TaskState.taskUndefined []).marshal)],
    activeTasks := [(101, (QueryCoord.Task.mk 0 QueryCoord.MsgType.LoadSegments 2 0
      QueryCoord.TaskState.taskUndefined []).marshal)],
    taskInfos := [(100, QueryCoord.stateNat QueryCoord.TaskState.taskDone)] }

/-- C2: with exactly a trigger entry 100 (marshalled loadCollection, ts 1),
an active entry 101 (marshalled loadSegments, ts 2) and task-info 100 = done
in the KV store, `reloadFromKV` followed by one `PopTask` yields a task whose
state is `done` and whose child list has length exactly 1. -/
theorem reload_recovery_shape :
    ∃ q t, QueryCoord.reloadFromKV kvRecoveryShape = Except.ok q ∧
      QueryCoord.PopTask q = some t ∧
      t.getState = QueryCoord.TaskState.taskDone ∧
      t.getChildTask.length = 1 :=
  ⟨_, _, rfl, rfl, rfl, rfl⟩

/-- C4: `unmarshalTask id blob` has exactly three outcomes — a reconstructed
task when the tag is known and the payload parses, `ErrUnknownTaskType` when
the tag is unknown, and `ErrCorruptTask` when the payload is malformed. -/
theorem unmarshalTask_outcomes (id : Int) (b : QueryCoord.Blob) :
    (QueryCoord.tagMsgType b.tag = none ∧
      QueryCoord.unmarshalTask id b =
        Except.error QueryCoord.UnmarshalErr.unknownTaskType) ∨
    (∃ mt, QueryCoord.tagMsgType b.tag = some mt ∧
      QueryCoord.parsePayload b.payload = none ∧
      QueryCoord.unmarshalTask id b =
        Except.error QueryCoord.UnmarshalErr.corruptTask) ∨
    (∃ mt ts nid, QueryCoord.tagMsgType b.tag = some mt ∧
      QueryCoord.parsePayload b.payload = some (ts, nid) ∧
      QueryCoord.unmarshalTask id b =
        Except.ok (QueryCoord.Task.mk id mt ts nid QueryCoord.TaskState.taskUndefined [])) := by
  cases h1 : QueryCoord.tagMsgType b.tag with
  | none => exact Or.inl ⟨rfl, by simp [QueryCoord.unmarshalTask, h1]⟩
  | some mt =>
    cases h2 : QueryCoord.parsePayload b.payload with
    | none =>
      exact Or.inr (Or.inl ⟨mt, rfl, rfl, by simp [QueryCoord.unmarshalTask, h1, h2]⟩)
    | some p =>
      exact Or.inr (Or.inr ⟨mt, p.1, p.2, rfl, rfl, by
        simp [QueryCoord.unmarshalTask, h1, h2]⟩)

/-- C10: `NewClient(address, timeout)` errors exactly on the empty address
and otherwise returns an unconnected client with `recallTry = 3`,
`reconnTry = 10` and the given timeout. -/
theorem newClient_spec (a : String) (t : Nat) :
    (a = "" → IndexNodeClient.NewClient a t = Except.error "address is empty") ∧
    (a ≠ "" → IndexNodeClient.NewClient a t =
      Except.ok { address := a, timeoutMs := t, reconnTry := 10,
                  recallTry := 3, conn := none }) := by
  refine ⟨fun h => ?_, fun h => ?_⟩
  · simp [IndexNodeClient.NewClient, h]
  · simp [IndexNodeClient.NewClient, h]

/-- Witness for C10 at the empty and a non-empty address. -/
theorem newClient_spec_witness :
    IndexNodeClient.NewClient "" 7 = Except.error "address is empty" ∧
    IndexNodeClient.NewClient "localhost" 7 =
      Except.ok { address := "localhost", timeoutMs := 7, reconnTry := 10,
                  recallTry := 3, conn := none } :=
  ⟨(newClient_spec "" 7).1 rfl, (newClient_spec "localhost" 7).2 (by decide)⟩

/-- C7: `Init` retries the dial with a bound of 100000 attempts at a fixed
200 ms interval, returns the updated client on the first successful
connection, and the last dial error when every attempt fails. -/
theorem init_retry_bound_and_interval {E : Type} (c : IndexNodeClient.Client)
    (dial : Nat → Except E Nat) :
    (c.Init dial).2.1 ≤ 100000 ∧
    (c.Init dial).2.2 = 200 * ((c.Init dial).2.1 - 1) ∧
    (∀ k conn, k < 100000 → dial k = Except.ok conn →
      (∀ j, j < k → ∃ e, dial j = Except.error e) →
      c.Init dial = (Except.ok { c with conn := some conn }, k + 1, 200 * k)) ∧
    (∀ g : Nat → E, (∀ k, k < 100000 → dial k = Except.error (g k)) →
      c.Init dial = (Except.error (g 99999), 100000, 200 * 99999)) := by
  have hcounts := IndexNodeClient.Init_counts c dial
  refine ⟨?_, ?_, ?_, ?_⟩
  · have h1 : (c.Init dial).2.1 = (IndexNodeClient.Retry 100000 200 dial).2.1 := by
      rw [hcounts]
    rw [h1]
    exact IndexNodeClient.Retry_calls_le 100000 200 dial (by omega)
  · have h1 : (c.Init dial).2.1 = (IndexNodeClient.Retry 100000 200 dial).2.1 := by
      rw [hcounts]
    have h2 : (c.Init dial).2.2 = (IndexNodeClient.Retry 100000 200 dial).2.2 := by
      rw [hcounts]
    rw [h1, h2]
    exact IndexNodeClient.Retry_slept 100000 200 dial
  · intro k conn hk hok hfail
    have hR := IndexNodeClient.Retry_first_success 100000 200 dial k conn hk hok hfail
    simp [IndexNodeClient.Client.Init, hR]
  · intro g hg
    have hR := IndexNodeClient.Retry_all_fail 100000 200 dial g (by omega) hg
    simp only [show (100000 : Nat) - 1 = 99999 from rfl] at hR
    simp [IndexNodeClient.Client.Init, hR]

/-- Witness for C7: a dial that succeeds on the first attempt. -/
theorem init_retry_bound_and_interval_witness :
    (0 : Nat) < 100000 ∧
    ({ address := "a", timeoutMs := 1, reconnTry := 10, recallTry := 3,
       conn := none } : IndexNodeClient.Client).Init
        (fun _ => (Except.ok 5 : Except Unit Nat)) =
      (Except.ok { address := "a", timeoutMs := 1, reconnTry := 10, recallTry := 3,
                   conn := some 5 }, 1, 0) :=
  ⟨by decide,
    (init_retry_bound_and_interval _ _).2.2.1 0 5 (by decide) rfl
      (fun j hj => absurd hj (Nat.not_lt_zero j))⟩

/-- C6: per-call recall uses the small bound `recallTry = 3` from
`NewClient`, reconnects between consecutive caller attempts, and the
reconnect dials are spaced at the fixed 500 ms interval. -/
theorem recall_bound_and_reconnect_interval {A E : Type} :
    (∀ (a : String) (t : Nat) (c : IndexNodeClient.Client),
      IndexNodeClient.NewClient a t = Except.ok c → c.recallTry = 3) ∧
    (∀ (c : IndexNodeClient.Client) (caller : Nat → A × Option E)
        (reconn : Nat → Option E),
      (c.recall caller reconn).2.1 ≤ 1 + c.recallTry ∧
      (c.recall caller reconn).2.1 ≤ (c.recall caller reconn).2.2 + 1) ∧
    (∀ (c : IndexNodeClient.Client) (dial : Nat → Except E Nat),
      (c.reconnect dial).2.2 = 500 * ((c.reconnect dial).2.1 - 1)) := by
  refine ⟨?_, ?_, ?_⟩
  · intro a t c h
    unfold IndexNodeClient.NewClient at h
    split at h
    · exact absurd h (by simp)
    · simp only [Except.ok.injEq] at h
      rw [← h]
  · intro c caller reconn
    cases hc : caller 0 with
    | mk r oe =>
      cases oe with
      | none => simp [IndexNodeClient.Client.recall, hc]
      | some e =>
        have h := @IndexNodeClient.recallLoop_counts A E caller reconn
          c.recallTry r e 1 0
        simp only [IndexNodeClient.Client.recall, hc]
        omega
  · intro c dial
    have hcounts := IndexNodeClient.reconnect_counts c dial
    have h1 : (c.reconnect dial).2.1 = (IndexNodeClient.Retry c.reconnTry 500 dial).2.1 := by
      rw [hcounts]
    have h2 : (c.reconnect dial).2.2 = (IndexNodeClient.Retry c.reconnTry 500 dial).2.2 := by
      rw [hcounts]
    rw [h1, h2]
    exact IndexNodeClient.Retry_slept c.reconnTry 500 dial

def c6client : IndexNodeClient.Client :=
  { address := "x", timeoutMs := 1, reconnTry := 10, recallTry := 3, conn := none }

def c6dial : Nat → Except Unit Nat := fun _ => Except.ok 0

/-- Witness for C6: the `NewClient` client has `recallTry = 3`, and a
reconnect whose dial succeeds immediately slept `500 * 0` milliseconds. -/
theorem recall_bound_and_reconnect_interval_witness :
    c6client.recallTry = 3 ∧
    (c6client.reconnect c6dial).2.2 = 500 * ((c6client.reconnect c6dial).2.1 - 1) :=
  ⟨(recall_bound_and_reconnect_interval (A := Nat) (E := Unit)).1 "x" 1 c6client rfl,
   (recall_bound_and_reconnect_interval (A := Nat) (E := Unit)).2.2 c6client c6dial⟩

/-- C5: recall returns the first successful result produced by the caller
closure; when no invocation succeeds it returns the last error encountered
(the error of the final failing reconnect or caller call). -/
theorem recall_first_success_or_last_error {A E : Type}
    (c : IndexNodeClient.Client) (caller : Nat → A × Option E)
    (reconn : Nat → Option E) (hpos : 0 < c.recallTry) :
    (∀ r : A, (c.recall caller reconn).1 = (r, none) →
      ∃ i, i < (c.recall caller reconn).2.1 ∧ caller i = (r, none) ∧
        ∀ j, j < i → (caller j).2 ≠ none) ∧
    (∀ (ret : A) (e : E), (c.recall caller reconn).1 = (ret, some e) →
      reconn ((c.recall caller reconn).2.2 - 1) = some e ∨
      (reconn ((c.recall caller reconn).2.2 - 1) = none ∧
        (caller ((c.recall caller reconn).2.1 - 1)).2 = some e)) := by
  cases hc : caller 0 with
  | mk r0 oe =>
    cases oe with
    | none =>
      refine ⟨fun r h => ?_, fun ret e h => ?_⟩
      · simp only [IndexNodeClient.Client.recall, hc] at h ⊢
        obtain ⟨h1, -⟩ := Prod.mk.injEq .. ▸ h
        exact ⟨0, by omega, by rw [hc, h1], fun j hj => absurd hj (Nat.not_lt_zero j)⟩
      · simp only [IndexNodeClient.Client.recall, hc, Prod.mk.injEq] at h
        exact absurd h.2 (by simp)
    | some e0 =>
      simp only [IndexNodeClient.Client.recall, hc]
      refine ⟨fun r h => ?_, fun ret e h => ?_⟩
      · have hL : recallLoop caller reconn c.recallTry r0 e0 1 0 =
            ((r, none), (recallLoop caller reconn c.recallTry r0 e0 1 0).2.1,
              (recallLoop caller reconn c.recallTry r0 e0 1 0).2.2) := by
          rw [← h]
        obtain ⟨h1, h2, h3⟩ := IndexNodeClient.recallLoop_success_char
          c.recallTry r0 e0 1 0 r _ _ hL
        refine ⟨(recallLoop caller reconn c.recallTry r0 e0 1 0).2.1 - 1,
          by omega, h2, fun j hj => ?_⟩
        rcases Nat.eq_zero_or_pos j with rfl | hjpos
        · rw [hc]; simp
        · exact h3 j (by omega) hj
      · have hL : recallLoop caller reconn c.recallTry r0 e0 1 0 =
            ((ret, some e), (recallLoop caller reconn c.recallTry r0 e0 1 0).2.1,
              (recallLoop caller reconn c.recallTry r0 e0 1 0).2.2) := by
          rw [← h]
        rcases IndexNodeClient.recallLoop_failure_char
          c.recallTry r0 e0 1 0 ret e _ _ hL with ⟨hn, -, -, -⟩ | ⟨-, hrest⟩
        · omega
        · exact hrest

def c5client : IndexNodeClient.Client :=
  { address := "a", timeoutMs := 1, reconnTry := 10, recallTry := 3, conn := none }

def c5caller : Nat → Nat × Option Nat := fun i => (i, some 7)

def c5reconn : Nat → Option Nat := fun _ => some 9

/-- Witness for C5 at a concrete client, caller and reconnect oracle. -/
theorem recall_first_success_or_last_error_witness :
    0 < c5client.recallTry ∧
    ((∀ r : Nat, (c5client.recall c5caller c5reconn).1 = (r, none) →
      ∃ i, i < (c5client.recall c5caller c5reconn).2.1 ∧ c5caller i = (r, none) ∧
        ∀ j, j < i → (c5caller j).2 ≠ none) ∧
     (∀ (ret : Nat) (e : Nat), (c5client.recall c5caller c5reconn).1 = (ret, some e) →
      c5reconn ((c5client.recall c5caller c5reconn).2.2 - 1) = some e ∨
      (c5reconn ((c5client.recall c5caller c5reconn).2.2 - 1) = none ∧
        (c5caller ((c5client.recall c5caller c5reconn).2.1 - 1)).2 = some e))) :=
  ⟨by decide, recall_first_success_or_last_error c5client c5caller c5reconn (by decide)⟩

/-- C8: with `recallTry = 3`, a first-call success returns immediately with
no reconnect, the caller is invoked at most 4 times and reconnect at most 3
times. -/
theorem recall_call_counts {A E : Type} (c : IndexNodeClient.Client)
    (caller : Nat → A × Option E) (reconn : Nat → Option E)
    (h3 : c.recallTry = 3) :
    (∀ r : A, caller 0 = (r, none) →
      c.recall caller reconn = ((r, none), 1, 0)) ∧
    (c.recall caller reconn).2.1 ≤ 4 ∧
    (c.recall caller reconn).2.2 ≤ 3 := by
  refine ⟨fun r h => by simp [IndexNodeClient.Client.recall, h], ?_⟩
  cases hc : caller 0 with
  | mk r oe =>
    cases oe with
    | none => simp [IndexNodeClient.Client.recall, hc]
    | some e =>
      have h := @IndexNodeClient.recallLoop_counts A E caller reconn
        c.recallTry r e 1 0
      simp only [IndexNodeClient.Client.recall, hc]
      omega

def c8client : IndexNodeClient.Client :=
  { address := "a", timeoutMs := 1, reconnTry := 10, recallTry := 3, conn := none }

def c8caller : Nat → Nat × Option Nat := fun _ => (42, none)

def c8reconn : Nat → Option Nat := fun _ => none

/-- Witness for C8: a caller that succeeds on its first invocation. -/
theorem recall_call_counts_witness :
    c8client.recallTry = 3 ∧
    ((∀ r : Nat, c8caller 0 = (r, none) →
      c8client.recall c8caller c8reconn = ((r, none), 1, 0)) ∧
     (c8client.recall c8caller c8reconn).2.1 ≤ 4 ∧
     (c8client.recall c8caller c8reconn).2.2 ≤ 3) :=
  ⟨by decide, recall_call_counts c8client c8caller c8reconn (by decide)⟩

/-- C9: a failed reconnect consumes a retry iteration without re-invoking
the caller: when the first caller invocation fails and every reconnect
fails, recall returns the first caller invocation's value paired with the
error of the last (third) reconnect attempt, having invoked the caller once
and reconnect three times. -/
theorem recall_failed_reconnect_semantics {A E : Type}
    (c : IndexNodeClient.Client) (caller : Nat → A × Option E)
    (reconn : Nat → Option E) (g : Nat → E) (h3 : c.recallTry = 3)
    (r0 : A) (e0 : E) (hc : caller 0 = (r0, some e0))
    (hg : ∀ j, reconn j = some (g j)) :
    c.recall caller reconn = ((r0, some (g 2)), 1, 3) := by
  simp only [IndexNodeClient.Client.recall, hc, h3]
  have h := @IndexNodeClient.recallLoop_all_reconn_fail A E caller reconn
    g hg 2 r0 e0 1 0
  simpa using h

def c9client : IndexNodeClient.Client :=
  { address := "a", timeoutMs := 1, reconnTry := 10, recallTry := 3, conn := none }

def c9caller : Nat → Nat × Option Nat := fun _ => (5, some 99)

def c9reconn : Nat → Option Nat := fun j => some j

/-- Witness for C9: first caller call fails with error 99 and value 5, all
reconnects fail with their index as error; recall returns value 5 with the
last reconnect's error 2. -/
theorem recall_failed_reconnect_semantics_witness :
    c9client.recallTry = 3 ∧ c9caller 0 = (5, some 99) ∧
    c9client.recall c9caller c9reconn = ((5, some 2), 1, 3) :=
  ⟨by decide, rfl,
    recall_failed_reconnect_semantics c9client c9caller c9reconn (fun j => j)
      (by decide) 5 99 rfl (fun j => rfl)⟩

/-- C3: when a child task dispatched to worker `w` is in the active set and
`w` is removed from the session registry, the worker-loss handler changes
the set of active-prefix keys: the child's old key is gone afterwards
(re-issued under a fresh id or cleaned up with its failed parent). -/
theorem nodeDown_active_keys_change (cluster : List Int → Option Int) (w : Int)
    (nextID : Int) (s : List QueryCoord.ActiveChild) (c : QueryCoord.ActiveChild)
    (hc : c ∈ s) (ht : c.target = w)
    (hfresh : ∀ e ∈ s, e.id < nextID)
    (hnodup : (QueryCoord.activeKeys s).Nodup) :
    ∃ k, k ∈ QueryCoord.activeKeys s ∧
      k ∉ QueryCoord.activeKeys (QueryCoord.handleNodeDown cluster w nextID s) := by
  refine ⟨c.id, List.mem_map_of_mem _ hc, fun hmem => ?_⟩
  obtain ⟨e, hes, heid⟩ := List.mem_map.mp hmem
  rcases QueryCoord.mem_redispatchAll cluster w s nextID [] [] e hes with
    h1 | ⟨h2, h3⟩ | h4
  · exact absurd h1 (List.not_mem_nil e)
  · have he : e = c :=
      List.inj_on_of_nodup_map hnodup h2 hc (by rw [heid])
    rw [he] at h3
    exact h3 ht
  · have h5 := hfresh c hc
    omega

def c3entry : QueryCoord.ActiveChild :=
  { id := 0, target := 7, parentID := 0, excludeNodeIDs := [] }

def c3cluster : List Int → Option Int := fun _ => none

/-- Witness for C3: one active child with id 0 targeting worker 7; after
worker 7 goes down its key disappears from the active set. -/
theorem nodeDown_active_keys_change_witness :
    c3entry ∈ [c3entry] ∧ c3entry.target = 7 ∧
    (∀ e ∈ [c3entry], e.id < 1) ∧
    (QueryCoord.activeKeys [c3entry]).Nodup ∧
    ∃ k, k ∈ QueryCoord.activeKeys [c3entry] ∧
      k ∉ QueryCoord.activeKeys (QueryCoord.handleNodeDown c3cluster 7 1 [c3entry]) :=
  ⟨by decide, rfl, by decide, by decide,
    nodeDown_active_keys_change c3cluster 7 1 [c3entry] c3entry (by decide) rfl
      (by decide) (by decide)⟩

end ClaimTheorems
